import Mathlib

/-
Verification of the ghw options resolver (pkg/option/option.go).

The Go package reads a handful of GHW_* environment variables, holds
caller-supplied overrides in an Option struct whose fields are pointers
(nil meaning unset), and merges a variadic list of partial Option values
left-to-right with last-wins semantics, filling any still-missing field
from the environment-or-default lookup functions.

The embedding below renders Go pointer fields as Lean Option values
(none for a nil pointer), the process environment as a partial map from
variable names to string values, and os.LookupEnv as application of that
map. The Go struct named Option is rendered as GhwOption to avoid
clashing with the Lean Option type used to model its nullable fields.
-/

set_option maxHeartbeats 1000000

namespace Ghw

/-- The process environment, as consulted through os.LookupEnv: a partial
map from variable names to values. some v means the variable is present
with value v (possibly the empty string), none means it is absent. -/
abbrev Env := String → Option String

/-- Constant defaultChroot of the source: the fallback chroot path. -/
def defaultChroot : String := "/"

/-- Constant envKeyChroot of the source. -/
def envKeyChroot : String := "GHW_CHROOT"

/-- Constant envKeySnapshotPath of the source. -/
def envKeySnapshotPath : String := "GHW_SNAPSHOT_PATH"

/-- Constant envKeySnapshotRoot of the source. -/
def envKeySnapshotRoot : String := "GHW_SNAPSHOT_ROOT"

/-- Constant envKeySnapshotExclusive of the source. -/
def envKeySnapshotExclusive : String := "GHW_SNAPSHOT_EXCLUSIVE"

/-- Constant envKeySnapshotPreserve of the source. -/
def envKeySnapshotPreserve : String := "GHW_SNAPSHOT_PRESERVE"

/-- EnvOrDefaultChroot: the value of GHW_CHROOT if present, else "/". -/
def EnvOrDefaultChroot (env : Env) : String :=
  match env envKeyChroot with
  | some val => val
  | none => defaultChroot

/-- EnvOrDefaultSnapshotPath: the value of GHW_SNAPSHOT_PATH if present,
else "" (no snapshot). -/
def EnvOrDefaultSnapshotPath (env : Env) : String :=
  match env envKeySnapshotPath with
  | some val => val
  | none => ""

/-- EnvOrDefaultSnapshotRoot: the value of GHW_SNAPSHOT_ROOT if present,
else "" (self-manage the snapshot unpack directory). -/
def EnvOrDefaultSnapshotRoot (env : Env) : String :=
  match env envKeySnapshotRoot with
  | some val => val
  | none => ""

/-- EnvOrDefaultSnapshotExclusive: true when GHW_SNAPSHOT_EXCLUSIVE is
present in the environment (any value), false otherwise. -/
def EnvOrDefaultSnapshotExclusive (env : Env) : Bool :=
  match env envKeySnapshotExclusive with
  | some _ => true
  | none => false

/-- EnvOrDefaultSnapshotPreserve: true when GHW_SNAPSHOT_PRESERVE is
present in the environment (any value), false otherwise. -/
def EnvOrDefaultSnapshotPreserve (env : Env) : Bool :=
  match env envKeySnapshotPreserve with
  | some _ => true
  | none => false

/-- SnapshotOptions of the source: snapshot path (empty means no
snapshot), optional unpack root (a nil pointer in Go, rendered none,
means ghw self-manages the directory), and the exclusive flag. -/
structure SnapshotOptions where
  Path : String
  Root : Option String
  Exclusive : Bool
deriving Repr, DecidableEq

/-- The Option struct of the source (named GhwOption here because Option
is taken in Lean): both fields are pointers in Go so that set and unset
can be told apart; a nil pointer is rendered as none. -/
structure GhwOption where
  Chroot : Option String
  Snapshot : Option SnapshotOptions
deriving Repr, DecidableEq

/-- WithChroot: an Option with only the chroot field set. -/
def WithChroot (dir : String) : GhwOption :=
  { Chroot := some dir, Snapshot := none }

/-- WithSnapshot: an Option with only the snapshot field set. -/
def WithSnapshot (opts : SnapshotOptions) : GhwOption :=
  { Chroot := none, Snapshot := some opts }

/-- One iteration of the loop body of Merge: each field of the incoming
option that is set overwrites the accumulator field. -/
def mergeStep (merged o : GhwOption) : GhwOption :=
  { Chroot :=
      match o.Chroot with
      | some c => some c
      | none => merged.Chroot
    Snapshot :=
      match o.Snapshot with
      | some s => some s
      | none => merged.Snapshot }

/-- The loop of Merge: fold the argument list left-to-right over the
empty accumulator, before defaults are applied. -/
def mergeFold (opts : List GhwOption) : GhwOption :=
  opts.foldl mergeStep { Chroot := none, Snapshot := none }

/-- Merge of the source: fold the arguments left-to-right, then fill any
field still unset from the environment-or-default lookups. A defaulted
snapshot carries the environment path, a present (non-nil) root, and the
environment exclusive flag. -/
def Merge (env : Env) (opts : List GhwOption) : GhwOption :=
  let merged := mergeFold opts
  { Chroot :=
      match merged.Chroot with
      | some c => some c
      | none => some (EnvOrDefaultChroot env)
    Snapshot :=
      match merged.Snapshot with
      | some s => some s
      | none =>
        some { Path := EnvOrDefaultSnapshotPath env
               Root := some (EnvOrDefaultSnapshotRoot env)
               Exclusive := EnvOrDefaultSnapshotExclusive env } }

/-- The environment with no variable set. -/
def envNone : Env := fun _ => none

/-- An environment obtained by forcing one variable to a given state. -/
def setVar (env : Env) (key : String) (v : Option String) : Env :=
  fun k => if k = key then v else env k

/-- Spec-side predicate, written from the words of the specification
invariant: every field of the configuration is resolved, no unset
sentinel remains anywhere in it, the snapshot root included. -/
def fullyResolved (o : GhwOption) : Bool :=
  o.Chroot.isSome && o.Snapshot.isSome &&
    (match o.Snapshot with
     | some s => s.Root.isSome
     | none => true)

lemma mergeStep_Chroot (merged o : GhwOption) :
    (mergeStep merged o).Chroot =
      match o.Chroot with
      | some c => some c
      | none => merged.Chroot := rfl

lemma mergeStep_Snapshot (merged o : GhwOption) :
    (mergeStep merged o).Snapshot =
      match o.Snapshot with
      | some s => some s
      | none => merged.Snapshot := rfl

lemma foldl_mergeStep_Chroot (opts : List GhwOption) :
    ∀ init : GhwOption,
      (opts.foldl mergeStep init).Chroot =
        match (opts.filterMap GhwOption.Chroot).getLast? with
        | some c => some c
        | none => init.Chroot := by
  induction opts with
  | nil => intro init; simp
  | cons o rest ih =>
    intro init
    rw [List.foldl_cons, ih (mergeStep init o)]
    cases h : o.Chroot with
    | none =>
      simp [List.filterMap_cons, h, mergeStep_Chroot, h]
    | some c =>
      simp only [List.filterMap_cons, h]
      cases h2 : rest.filterMap GhwOption.Chroot with
      | nil => simp [mergeStep_Chroot, h]
      | cons b bs =>
        rw [List.getLast?_cons_cons]
        cases h3 : (b :: bs).getLast? with
        | none => simp at h3
        | some v => rfl

lemma foldl_mergeStep_Snapshot (opts : List GhwOption) :
    ∀ init : GhwOption,
      (opts.foldl mergeStep init).Snapshot =
        match (opts.filterMap GhwOption.Snapshot).getLast? with
        | some s => some s
        | none => init.Snapshot := by
  induction opts with
  | nil => intro init; simp
  | cons o rest ih =>
    intro init
    rw [List.foldl_cons, ih (mergeStep init o)]
    cases h : o.Snapshot with
    | none =>
      simp [List.filterMap_cons, h, mergeStep_Snapshot, h]
    | some s =>
      simp only [List.filterMap_cons, h]
      cases h2 : rest.filterMap GhwOption.Snapshot with
      | nil => simp [mergeStep_Snapshot, h]
      | cons b bs =>
        rw [List.getLast?_cons_cons]
        cases h3 : (b :: bs).getLast? with
        | none => simp at h3
        | some v => rfl

lemma mergeFold_Chroot (opts : List GhwOption) :
    (mergeFold opts).Chroot = (opts.filterMap GhwOption.Chroot).getLast? := by
  rw [mergeFold, foldl_mergeStep_Chroot]
  cases (opts.filterMap GhwOption.Chroot).getLast? <;> rfl

lemma mergeFold_Snapshot (opts : List GhwOption) :
    (mergeFold opts).Snapshot = (opts.filterMap GhwOption.Snapshot).getLast? := by
  rw [mergeFold, foldl_mergeStep_Snapshot]
  cases (opts.filterMap GhwOption.Snapshot).getLast? <;> rfl

lemma Merge_Chroot (env : Env) (opts : List GhwOption) :
    (Merge env opts).Chroot =
      match (mergeFold opts).Chroot with
      | some c => some c
      | none => some (EnvOrDefaultChroot env) := rfl

lemma Merge_Snapshot (env : Env) (opts : List GhwOption) :
    (Merge env opts).Snapshot =
      match (mergeFold opts).Snapshot with
      | some s => some s
      | none =>
        some { Path := EnvOrDefaultSnapshotPath env
               Root := some (EnvOrDefaultSnapshotRoot env)
               Exclusive := EnvOrDefaultSnapshotExclusive env } := rfl

lemma mergeFold_chroot_isSome {opts : List GhwOption}
    (h : opts.any (fun o => o.Chroot.isSome) = true) :
    ∃ c, (mergeFold opts).Chroot = some c := by
  rw [mergeFold_Chroot]
  rw [List.any_eq_true] at h
  obtain ⟨o, ho, hc⟩ := h
  obtain ⟨c, hc2⟩ := Option.isSome_iff_exists.mp hc
  have hm : c ∈ opts.filterMap GhwOption.Chroot :=
    List.mem_filterMap.mpr ⟨o, ho, hc2⟩
  have hne : opts.filterMap GhwOption.Chroot ≠ [] := List.ne_nil_of_mem hm
  exact Option.isSome_iff_exists.mp (List.getLast?_isSome.mpr hne)

lemma mergeFold_snapshot_isSome {opts : List GhwOption}
    (h : opts.any (fun o => o.Snapshot.isSome) = true) :
    ∃ s, (mergeFold opts).Snapshot = some s := by
  rw [mergeFold_Snapshot]
  rw [List.any_eq_true] at h
  obtain ⟨o, ho, hs⟩ := h
  obtain ⟨s, hs2⟩ := Option.isSome_iff_exists.mp hs
  have hm : s ∈ opts.filterMap GhwOption.Snapshot :=
    List.mem_filterMap.mpr ⟨o, ho, hs2⟩
  have hne : opts.filterMap GhwOption.Snapshot ≠ [] := List.ne_nil_of_mem hm
  exact Option.isSome_iff_exists.mp (List.getLast?_isSome.mpr hne)

lemma merge_env_congr (env1 env2 : Env) (opts : List GhwOption)
    (hc : EnvOrDefaultChroot env1 = EnvOrDefaultChroot env2)
    (hp : EnvOrDefaultSnapshotPath env1 = EnvOrDefaultSnapshotPath env2)
    (hr : EnvOrDefaultSnapshotRoot env1 = EnvOrDefaultSnapshotRoot env2)
    (he : EnvOrDefaultSnapshotExclusive env1 = EnvOrDefaultSnapshotExclusive env2) :
    Merge env1 opts = Merge env2 opts := by
  cases h1 : (mergeFold opts).Chroot <;> cases h2 : (mergeFold opts).Snapshot <;>
    simp [Merge, h1, h2, hc, hp, hr, he]

/-- C1: Merge folds its arguments left-to-right with per-field last-wins
semantics: before defaulting, the chroot of the fold is the chroot of the
last argument whose chroot field is present, and likewise for snapshot;
the fields are independent, so appending an argument with one field unset
leaves the other accumulated field untouched. -/
theorem mergeFold_last_wins (opts : List GhwOption) :
    (mergeFold opts).Chroot = (opts.filterMap GhwOption.Chroot).getLast? ∧
    (mergeFold opts).Snapshot = (opts.filterMap GhwOption.Snapshot).getLast? ∧
    (∀ a : GhwOption, a.Snapshot = none →
      (mergeFold (opts ++ [a])).Snapshot = (mergeFold opts).Snapshot) ∧
    (∀ a : GhwOption, a.Chroot = none →
      (mergeFold (opts ++ [a])).Chroot = (mergeFold opts).Chroot) := by
  refine ⟨mergeFold_Chroot opts, mergeFold_Snapshot opts, ?_, ?_⟩
  · intro a ha
    rw [mergeFold_Snapshot, mergeFold_Snapshot, List.filterMap_append]
    simp [ha]
  · intro a ha
    rw [mergeFold_Chroot, mergeFold_Chroot, List.filterMap_append]
    simp [ha]

/-- Witness for C1 at a concrete list: appending a chroot-only argument
leaves the accumulated snapshot unchanged. -/
theorem mergeFold_last_wins_witness :
    (mergeFold ([WithSnapshot ⟨"/snap", none, false⟩] ++ [WithChroot "/b"])).Snapshot =
      (mergeFold [WithSnapshot ⟨"/snap", none, false⟩]).Snapshot :=
  (mergeFold_last_wins [WithSnapshot ⟨"/snap", none, false⟩]).2.2.1 (WithChroot "/b") rfl

/-- Counterexample to C2 as stated: merging a caller-supplied snapshot
whose root is unset keeps that root unset, so an unset sentinel survives
in the result of Merge. -/
theorem merge_fullyResolved_cex :
    fullyResolved
      (Merge envNone [WithSnapshot { Path := "/snap", Root := none, Exclusive := false }])
      = false := by decide

/-- C2 amended: the top-level fields of the result of Merge are always
present (chroot and snapshot are set), and whenever no argument supplied
a snapshot the defaulted snapshot is fully resolved: environment path,
present root, environment exclusive flag. A caller-supplied
SnapshotOptions is kept whole, so its root may remain unset. -/
theorem merge_resolved (env : Env) (opts : List GhwOption) :
    (Merge env opts).Chroot.isSome = true ∧
    (Merge env opts).Snapshot.isSome = true ∧
    ((mergeFold opts).Snapshot = none →
      (Merge env opts).Snapshot =
        some { Path := EnvOrDefaultSnapshotPath env
               Root := some (EnvOrDefaultSnapshotRoot env)
               Exclusive := EnvOrDefaultSnapshotExclusive env }) := by
  refine ⟨?_, ?_, ?_⟩
  · rw [Merge_Chroot]; cases (mergeFold opts).Chroot <;> rfl
  · rw [Merge_Snapshot]; cases (mergeFold opts).Snapshot <;> rfl
  · intro h; rw [Merge_Snapshot, h]

/-- Witness for C2 amended at the empty argument list and empty
environment. -/
theorem merge_resolved_witness :
    (Merge envNone []).Chroot.isSome = true ∧
    (Merge envNone []).Snapshot.isSome = true ∧
    (Merge envNone []).Snapshot =
      some { Path := EnvOrDefaultSnapshotPath envNone
             Root := some (EnvOrDefaultSnapshotRoot envNone)
             Exclusive := EnvOrDefaultSnapshotExclusive envNone } :=
  ⟨(merge_resolved envNone []).1, (merge_resolved envNone []).2.1,
    (merge_resolved envNone []).2.2 rfl⟩

/-- C3: Merge with zero arguments is populated entirely from the
environment-or-default lookups: with none of the relevant variables set
it yields chroot "/", snapshot path "", snapshot root "" and exclusive
false; with GHW_CHROOT set to "/host" it yields chroot "/host". -/
theorem merge_empty_env_defaults :
    (∀ env : Env,
      env envKeyChroot = none → env envKeySnapshotPath = none →
      env envKeySnapshotRoot = none → env envKeySnapshotExclusive = none →
      Merge env [] =
        { Chroot := some defaultChroot
          Snapshot := some { Path := "", Root := some "", Exclusive := false } }) ∧
    (∀ env : Env, env envKeyChroot = some "/host" →
      (Merge env []).Chroot = some "/host") := by
  constructor
  · intro env h1 h2 h3 h4
    simp [Merge, mergeFold, EnvOrDefaultChroot, EnvOrDefaultSnapshotPath,
      EnvOrDefaultSnapshotRoot, EnvOrDefaultSnapshotExclusive, h1, h2, h3, h4]
  · intro env h1
    simp [Merge, mergeFold, EnvOrDefaultChroot, h1]

/-- The environment in which only GHW_CHROOT is set, to "/host". -/
def envHost : Env := setVar envNone envKeyChroot (some "/host")

/-- Witness for C3 at the empty environment and at envHost. -/
theorem merge_empty_env_defaults_witness :
    Merge envNone [] =
      { Chroot := some defaultChroot
        Snapshot := some { Path := "", Root := some "", Exclusive := false } } ∧
    (Merge envHost []).Chroot = some "/host" :=
  ⟨merge_empty_env_defaults.1 envNone rfl rfl rfl rfl,
    merge_empty_env_defaults.2 envHost (by decide)⟩

/-- C4: EnvOrDefaultChroot returns the default "/" exactly in the case
that GHW_CHROOT is absent, and returns the stored value, the empty
string included, whenever it is present. -/
theorem envOrDefaultChroot_lookup (env : Env) :
    (env envKeyChroot = none → EnvOrDefaultChroot env = defaultChroot) ∧
    (∀ v : String, env envKeyChroot = some v → EnvOrDefaultChroot env = v) := by
  constructor
  · intro h; simp [EnvOrDefaultChroot, h]
  · intro v h; simp [EnvOrDefaultChroot, h]

/-- The environment in which only GHW_CHROOT is set, to the empty
string. -/
def envEmptyChroot : Env := setVar envNone envKeyChroot (some "")

/-- Witness for C4: the default at the empty environment, and the exact
(empty) stored value at envEmptyChroot. -/
theorem envOrDefaultChroot_lookup_witness :
    EnvOrDefaultChroot envNone = defaultChroot ∧
    EnvOrDefaultChroot envEmptyChroot = "" :=
  ⟨(envOrDefaultChroot_lookup envNone).1 rfl,
    (envOrDefaultChroot_lookup envEmptyChroot).2 "" (by decide)⟩

/-- C5: EnvOrDefaultSnapshotExclusive is true exactly when
GHW_SNAPSHOT_EXCLUSIVE is present, whatever its value; presence with the
empty string yields true, absence yields false. -/
theorem envOrDefaultSnapshotExclusive_iff (env : Env) :
    EnvOrDefaultSnapshotExclusive env = true ↔
      (env envKeySnapshotExclusive).isSome = true := by
  cases h : env envKeySnapshotExclusive <;>
    simp [EnvOrDefaultSnapshotExclusive, h]

/-- C6: Merge is idempotent on its own output: re-merging the fully
resolved result of Merge under the same environment returns it
unchanged. -/
theorem merge_idem (env : Env) (opts : List GhwOption) :
    Merge env [Merge env opts] = Merge env opts := by
  obtain ⟨c, hc⟩ : ∃ c, (Merge env opts).Chroot = some c := by
    rw [Merge_Chroot]; cases (mergeFold opts).Chroot <;> exact ⟨_, rfl⟩
  obtain ⟨s, hs⟩ : ∃ s, (Merge env opts).Snapshot = some s := by
    rw [Merge_Snapshot]; cases (mergeFold opts).Snapshot <;> exact ⟨_, rfl⟩
  have hM : Merge env opts = ⟨some c, some s⟩ := by rw [← hc, ← hs]
  rw [hM]
  rfl

/-- C7: every operation of the resolver is total: each lookup,
constructor and Merge produces a result on every input and environment,
and environment values are treated as opaque strings or presence flags,
so any stored value, however malformed, for a boolean flag just means
presence. -/
theorem resolver_total :
    (∀ env : Env, ∃ r : String, EnvOrDefaultChroot env = r) ∧
    (∀ env : Env, ∃ r : String, EnvOrDefaultSnapshotPath env = r) ∧
    (∀ env : Env, ∃ r : String, EnvOrDefaultSnapshotRoot env = r) ∧
    (∀ env : Env, ∃ r : Bool, EnvOrDefaultSnapshotExclusive env = r) ∧
    (∀ env : Env, ∃ r : Bool, EnvOrDefaultSnapshotPreserve env = r) ∧
    (∀ dir : String, ∃ r : GhwOption, WithChroot dir = r) ∧
    (∀ s : SnapshotOptions, ∃ r : GhwOption, WithSnapshot s = r) ∧
    (∀ (env : Env) (opts : List GhwOption), ∃ r : GhwOption, Merge env opts = r) ∧
    (∀ (env : Env) (v : String),
      EnvOrDefaultSnapshotExclusive (setVar env envKeySnapshotExclusive (some v)) = true ∧
      EnvOrDefaultSnapshotPreserve (setVar env envKeySnapshotPreserve (some v)) = true) := by
  refine ⟨fun env => ⟨_, rfl⟩, fun env => ⟨_, rfl⟩, fun env => ⟨_, rfl⟩,
    fun env => ⟨_, rfl⟩, fun env => ⟨_, rfl⟩, fun dir => ⟨_, rfl⟩,
    fun s => ⟨_, rfl⟩, fun env opts => ⟨_, rfl⟩, fun env v => ⟨?_, ?_⟩⟩
  · simp [EnvOrDefaultSnapshotExclusive, setVar]
  · simp [EnvOrDefaultSnapshotPreserve, setVar]

/-- C8: EnvOrDefaultSnapshotPreserve is true exactly when
GHW_SNAPSHOT_PRESERVE is present, whatever its value, and the setting
has no caller-settable override: the result of Merge is independent of
that variable, so no argument can influence it. -/
theorem preserve_env_only :
    (∀ env : Env,
      EnvOrDefaultSnapshotPreserve env = (env envKeySnapshotPreserve).isSome) ∧
    (∀ (env : Env) (v : Option String) (opts : List GhwOption),
      Merge (setVar env envKeySnapshotPreserve v) opts = Merge env opts) := by
  constructor
  · intro env
    cases h : env envKeySnapshotPreserve <;>
      simp [EnvOrDefaultSnapshotPreserve, h]
  · intro env v opts
    refine merge_env_congr _ _ _ ?_ ?_ ?_ ?_ <;>
      simp [EnvOrDefaultChroot, EnvOrDefaultSnapshotPath, EnvOrDefaultSnapshotRoot,
        EnvOrDefaultSnapshotExclusive, setVar,
        envKeyChroot, envKeySnapshotPath, envKeySnapshotRoot,
        envKeySnapshotExclusive, envKeySnapshotPreserve]

/-- C9: when some argument has its snapshot field present, the result of
Merge carries exactly the last such SnapshotOptions, taken whole: its
root is not filled in from anywhere, and the snapshot part of the result
does not depend on the environment at all. -/
theorem merge_snapshot_taken_whole (env : Env) (opts : List GhwOption)
    (s : SnapshotOptions)
    (h : (opts.filterMap GhwOption.Snapshot).getLast? = some s) :
    (Merge env opts).Snapshot = some s ∧
    (Merge env opts).Snapshot.bind SnapshotOptions.Root = s.Root ∧
    (∀ env2 : Env, (Merge env2 opts).Snapshot = (Merge env opts).Snapshot) := by
  have h2 : (mergeFold opts).Snapshot = some s := by rw [mergeFold_Snapshot, h]
  refine ⟨?_, ?_, ?_⟩
  · rw [Merge_Snapshot, h2]
  · rw [Merge_Snapshot, h2]; rfl
  · intro env2; rw [Merge_Snapshot, h2, Merge_Snapshot, h2]

/-- Witness for C9: a single caller-supplied snapshot with unset root is
returned whole by Merge, its root still unset. -/
theorem merge_snapshot_taken_whole_witness :
    (Merge envNone [WithSnapshot ⟨"/snap", none, false⟩]).Snapshot =
      some ⟨"/snap", none, false⟩ :=
  (merge_snapshot_taken_whole envNone [WithSnapshot ⟨"/snap", none, false⟩]
    ⟨"/snap", none, false⟩ (by decide)).1

/-- C10: noninterference. Environments differing only in GHW_CHROOT give
equal Merge results once some argument supplies a chroot; environments
differing only in the three snapshot variables give equal Merge results
once some argument supplies a snapshot; and the result of Merge never
depends on GHW_SNAPSHOT_PRESERVE. -/
theorem merge_noninterference :
    (∀ (env1 env2 : Env) (opts : List GhwOption),
      (∀ k, k ≠ envKeyChroot → env1 k = env2 k) →
      opts.any (fun o => o.Chroot.isSome) = true →
      Merge env1 opts = Merge env2 opts) ∧
    (∀ (env1 env2 : Env) (opts : List GhwOption),
      (∀ k, k ≠ envKeySnapshotPath → k ≠ envKeySnapshotRoot →
        k ≠ envKeySnapshotExclusive → env1 k = env2 k) →
      opts.any (fun o => o.Snapshot.isSome) = true →
      Merge env1 opts = Merge env2 opts) ∧
    (∀ (env1 env2 : Env) (opts : List GhwOption),
      (∀ k, k ≠ envKeySnapshotPreserve → env1 k = env2 k) →
      Merge env1 opts = Merge env2 opts) := by
  refine ⟨?_, ?_, ?_⟩
  · intro env1 env2 opts henv hany
    obtain ⟨c, hc⟩ := mergeFold_chroot_isSome hany
    have e1 : env1 envKeySnapshotPath = env2 envKeySnapshotPath :=
      henv _ (by decide)
    have e2 : env1 envKeySnapshotRoot = env2 envKeySnapshotRoot :=
      henv _ (by decide)
    have e3 : env1 envKeySnapshotExclusive = env2 envKeySnapshotExclusive :=
      henv _ (by decide)
    cases hs : (mergeFold opts).Snapshot <;>
      simp [Merge, hc, hs, EnvOrDefaultSnapshotPath, EnvOrDefaultSnapshotRoot,
        EnvOrDefaultSnapshotExclusive, e1, e2, e3]
  · intro env1 env2 opts henv hany
    obtain ⟨s, hs⟩ := mergeFold_snapshot_isSome hany
    have e1 : env1 envKeyChroot = env2 envKeyChroot :=
      henv _ (by decide) (by decide) (by decide)
    cases hc : (mergeFold opts).Chroot <;>
      simp [Merge, hc, hs, EnvOrDefaultChroot, e1]
  · intro env1 env2 opts henv
    have e1 : env1 envKeyChroot = env2 envKeyChroot := henv envKeyChroot (by decide)
    have e2 : env1 envKeySnapshotPath = env2 envKeySnapshotPath :=
      henv envKeySnapshotPath (by decide)
    have e3 : env1 envKeySnapshotRoot = env2 envKeySnapshotRoot :=
      henv envKeySnapshotRoot (by decide)
    have e4 : env1 envKeySnapshotExclusive = env2 envKeySnapshotExclusive :=
      henv envKeySnapshotExclusive (by decide)
    refine merge_env_congr _ _ _ ?_ ?_ ?_ ?_ <;>
      simp [EnvOrDefaultChroot, EnvOrDefaultSnapshotPath, EnvOrDefaultSnapshotRoot,
        EnvOrDefaultSnapshotExclusive, e1, e2, e3, e4]

/-- Witness for C10: forcing GHW_SNAPSHOT_PRESERVE in an otherwise empty
environment leaves the result of Merge unchanged. -/
theorem merge_noninterference_witness :
    Merge (setVar envNone envKeySnapshotPreserve (some "1")) [] = Merge envNone [] :=
  merge_noninterference.2.2 (setVar envNone envKeySnapshotPreserve (some "1"))
    envNone [] (fun k hk => by simp [setVar, envNone, hk])

end Ghw
